import Mathlib

/-!
Shallow embedding of the kots manifest-rendering core:
the base builder (pkg/base, WriteBase) and the midstream composer
(pkg/midstream/write.go, WriteMidstream and mergeKustomization),
together with the Kustomization data model they share
(a restriction of sigs.k8s.io/kustomize types to the fields this code touches).

Filesystem effects are modelled as an explicit trace of operations, and the
outcomes of the ambient filesystem probes (os.Stat, reading and parsing an
existing kustomization.yaml, filepath.Rel, write failures) are supplied by an
environment record, so every function is a pure state transformer.
-/

namespace Kots

/-- One image-rewrite rule of a Kustomization (kustomize types.Image). -/
structure Image where
  Name : String
  NewName : String
  NewTag : String
  Digest : String
deriving DecidableEq, Repr

/-- The fields of a kustomize types.Kustomization that the kots core reads or
writes.  PatchesStrategicMerge entries are the patch file references (strings
in the embedding, as PatchStrategicMerge is a string type in the source). -/
structure Kustomization where
  APIVersion : String := ""
  Kind : String := ""
  Resources : List String := []
  PatchesStrategicMerge : List String := []
  Images : List Image := []
  Bases : List String := []
deriving DecidableEq, Repr

/-- Outcome of an os.Stat call, supplied by the environment.  The source only
ever distinguishes a nil error, os.IsNotExist, and everything else. -/
inductive StatOutcome where
  | ok
  | errNotExist
  | errPermission
  | errOther
deriving DecidableEq, Repr

/-- Splits a character list on a separator; character-level so the kernel can
evaluate it (String.splitOn does not reduce definitionally). -/
def splitPathAux (sep : Char) : List Char → List Char → List (List Char)
  | [], acc => [acc.reverse]
  | c :: rest, acc =>
    if c = sep then acc.reverse :: splitPathAux sep rest []
    else splitPathAux sep rest (c :: acc)

/-- Joins path components with slashes, character-level. -/
def joinPathAux : List (List Char) → List Char
  | [] => []
  | [x] => x
  | x :: xs => x ++ '/' :: joinPathAux xs

/-- Go path.Clean on the characters of a slash-separated path: drop empty and
dot components, resolve dot-dot against a stack, and rebuild (an empty
result cleans to the dot path). -/
def goPathCleanChars (cs : List Char) : List Char :=
  if cs.isEmpty then ['.']
  else
    let rooted : Bool := match cs with | '/' :: _ => true | _ => false
    let comps := (splitPathAux '/' cs []).filter (fun c => !(c.isEmpty) && !(c == ['.']))
    let stack := comps.foldl (fun acc c =>
      if c == ['.', '.'] then
        match acc with
        | [] => if rooted then [] else [['.', '.']]
        | top :: rest => if top == ['.', '.'] then c :: top :: rest else rest
      else c :: acc) []
    let body := joinPathAux stack.reverse
    if rooted then '/' :: body
    else if body.isEmpty then ['.'] else body

/-- Go path.Clean. -/
def goPathClean (p : String) : String := String.mk (goPathCleanChars p.data)

/-- Go path.Join on two elements: drop empty elements, join with a slash,
and clean; all empty yields the empty string. -/
def goPathJoin (a b : String) : String :=
  let elems := [a.data, b.data].filter (fun e => !(e.isEmpty))
  if elems.isEmpty then ""
  else String.mk (goPathCleanChars (joinPathAux elems))

/-- Go path.Split: split after the final slash, returning (dir, file). -/
def goPathSplit (p : String) : String × String :=
  let parts := splitPathAux '/' p.data []
  let fileName := parts.getLastD []
  (String.mk (p.data.take (p.data.length - fileName.length)), String.mk fileName)

end Kots

namespace Kots.midstream

/-- Metadata of a parsed Kubernetes document (pkg/k8sdoc). -/
structure Metadata where
  Name : String
deriving DecidableEq, Repr

/-- The single pull-secret reference of a patch document; the source stores it
as a one-entry string map with key name. -/
structure ImagePullSecret where
  name : String
deriving DecidableEq, Repr

structure PodSpec where
  ImagePullSecrets : List ImagePullSecret := []
deriving DecidableEq, Repr

structure Template where
  Spec : PodSpec := {}
deriving DecidableEq, Repr

structure Spec where
  Template : Template := {}
deriving DecidableEq, Repr

/-- A parsed Kubernetes document as seen by the midstream composer. -/
structure Doc where
  APIVersion : String
  Kind : String
  Metadata : Metadata
  Spec : Spec := {}
deriving DecidableEq, Repr

/-- A registry pull secret (corev1.Secret); only its identity matters to the
composer, which serializes it verbatim. -/
structure Secret where
  Name : String
deriving DecidableEq, Repr

/-- The midstream composer state: the freshly computed Kustomization, the
optional pull secret, and the documents needing secret injection. -/
structure Midstream where
  Kustomization : Kustomization
  PullSecret : Option Secret := none
  DocForPatches : List Doc := []
deriving DecidableEq, Repr

def secretFilename : String := "secret.yaml"

def patchesFilename : String := "pullsecrets.yaml"

structure WriteOptions where
  MidstreamDir : String
  BaseDir : String
deriving DecidableEq, Repr

/-- A filesystem write performed by WriteMidstream, recorded in a trace. -/
inductive MOp where
  | mkdirAll (dir : String)
  | writeSecretFile (path : String) (secret : Secret)
  | writePatchesFile (path : String) (docs : List Doc)
  | writeKustomizationFile (path : String) (k : Kustomization)
deriving DecidableEq, Repr

inductive MidstreamError where
  | loadExistingFailed
  | mkdirFailed
  | marshalSecretFailed
  | writeSecretFailed
  | writePatchesFailed
  | relPathFailed
  | writeKustomizationFailed
deriving DecidableEq, Repr

/-- The ambient world of one WriteMidstream call: the os.Stat outcome for the
existing kustomization.yaml, the parse outcome of reading it (none models a
parse error), whether marshalling the pull secret succeeds, the filepath.Rel
function, and which write operations fail. -/
structure MidstreamEnv where
  statKustomizationFile : StatOutcome
  readKustomization : Option Kustomization
  marshalPullSecretOk : Bool := true
  relPath : String → String → Option String
  opFails : MOp → Bool := fun _ => false

def KustomizationFilename (options : WriteOptions) : String :=
  goPathJoin options.MidstreamDir "kustomization.yaml"

/-- obejctWithPullSecret from the source (typo preserved): the minimal patch
document carrying the identity of obj and a fixed pull-secret reference. -/
def obejctWithPullSecret (obj : Doc) (_secret : Option Secret) : Doc :=
  { APIVersion := obj.APIVersion
    Kind := obj.Kind
    Metadata := { Name := obj.Metadata.Name }
    Spec := { Template := { Spec := { ImagePullSecrets := [{ name := "kotsadm-replicated-registry" }] } } } }

/-- Modelled from the spec: removeExistingImages is called by
mergeKustomization but its body is not among the sources.  The spec says the
image merge deduplicates by image name; at the call site the result is
appended after the newly computed image list, so the helper returns the
entries of the existing list whose name does not occur in the new list. -/
def removeExistingImages (newImages existingImages : List Image) : List Image :=
  existingImages.filter (fun e => !(newImages.any (fun n => n.Name == e.Name)))

/-- Modelled from the spec: findNewPatches is called by mergeKustomization but
its body is not among the sources.  Per the spec it keeps the new patch
references not already present in the existing list, by string equality. -/
def findNewPatches (newPatches existingPatches : List String) : List String :=
  newPatches.filter (fun p => !(existingPatches.contains p))

/-- Modelled from the spec: findNewStrings is called by mergeKustomization but
its body is not among the sources.  Per the spec it keeps the new entries not
already present in the existing list, by exact string match. -/
def findNewStrings (newStrings existingStrings : List String) : List String :=
  newStrings.filter (fun s => !(existingStrings.contains s))

/-- mergeKustomization from pkg/midstream/write.go: a nil existing
Kustomization is a no-op; otherwise images become the new list followed by
the surviving existing entries, while patches and resources become the
existing list followed by the new entries not already present. -/
def mergeKustomization (m : Midstream) (existing : Option Kustomization) : Midstream :=
  match existing with
  | none => m
  | some ex =>
    let filteredImages := removeExistingImages m.Kustomization.Images ex.Images
    let images := m.Kustomization.Images ++ filteredImages
    let newPatches := findNewPatches m.Kustomization.PatchesStrategicMerge ex.PatchesStrategicMerge
    let patches := ex.PatchesStrategicMerge ++ newPatches
    let newResources := findNewStrings m.Kustomization.Resources ex.Resources
    let resources := ex.Resources ++ newResources
    { m with Kustomization :=
        { m.Kustomization with
            Images := images
            PatchesStrategicMerge := patches
            Resources := resources } }

/-- writePullSecret: nothing to do without a pull secret; otherwise marshal
and write secret.yaml under MidstreamDir, returning the relative filename. -/
def writePullSecret (m : Midstream) (options : WriteOptions) (env : MidstreamEnv) :
    List MOp × Except MidstreamError String :=
  match m.PullSecret with
  | none => ([], Except.ok "")
  | some s =>
    if !env.marshalPullSecretOk then ([], Except.error MidstreamError.marshalSecretFailed)
    else if env.opFails (MOp.writeSecretFile (goPathJoin options.MidstreamDir secretFilename) s) then
      ([], Except.error MidstreamError.writeSecretFailed)
    else
      ([MOp.writeSecretFile (goPathJoin options.MidstreamDir secretFilename) s],
       Except.ok secretFilename)

/-- writeObjectsWithPullSecret: nothing to do without documents needing
patches; otherwise write all minimal patch documents into pullsecrets.yaml
under MidstreamDir, returning the relative filename. -/
def writeObjectsWithPullSecret (m : Midstream) (options : WriteOptions) (env : MidstreamEnv) :
    List MOp × Except MidstreamError String :=
  if m.DocForPatches.length == 0 then ([], Except.ok "")
  else
    if env.opFails (MOp.writePatchesFile (goPathJoin options.MidstreamDir patchesFilename)
        (m.DocForPatches.map (fun o => obejctWithPullSecret o m.PullSecret))) then
      ([], Except.error MidstreamError.writePatchesFailed)
    else
      ([MOp.writePatchesFile (goPathJoin options.MidstreamDir patchesFilename)
          (m.DocForPatches.map (fun o => obejctWithPullSecret o m.PullSecret))],
       Except.ok patchesFilename)

/-- writeKustomization: compute the relative path from MidstreamDir to
BaseDir, overwrite Bases with that single entry, and persist the file. -/
def writeKustomization (m : Midstream) (options : WriteOptions) (env : MidstreamEnv) :
    List MOp × Except MidstreamError Midstream :=
  match env.relPath options.MidstreamDir options.BaseDir with
  | none => ([], Except.error MidstreamError.relPathFailed)
  | some relativeBaseDir =>
    if env.opFails (MOp.writeKustomizationFile (KustomizationFilename options)
        { m.Kustomization with Bases := [relativeBaseDir] }) then
      ([], Except.error MidstreamError.writeKustomizationFailed)
    else
      ([MOp.writeKustomizationFile (KustomizationFilename options)
          { m.Kustomization with Bases := [relativeBaseDir] }],
       Except.ok { m with Kustomization := { m.Kustomization with Bases := [relativeBaseDir] } })

/-- Step 1 of WriteMidstream: stat the existing kustomization.yaml; when it
exists, read and parse it, a parse failure being an error; when stat fails it
is treated as absent. -/
def loadExistingKustomization (env : MidstreamEnv) : Except MidstreamError (Option Kustomization) :=
  match env.statKustomizationFile with
  | StatOutcome.ok =>
    match env.readKustomization with
    | none => Except.error MidstreamError.loadExistingFailed
    | some k => Except.ok (some k)
  | _ => Except.ok none

/-- Prefixes already-completed operations onto a later stage's outcome. -/
def prependOps (ops : List MOp) (r : List MOp × Except MidstreamError Midstream) :
    List MOp × Except MidstreamError Midstream :=
  (ops ++ r.1, r.2)

/-- Steps 4 to 7 of WriteMidstream, after the secret reference was recorded
into m1: write the patch file, record its reference, merge with the existing
Kustomization, and persist. -/
def writeMidstreamPatchStage (m1 : Midstream) (options : WriteOptions) (env : MidstreamEnv)
    (existing : Option Kustomization) : List MOp × Except MidstreamError Midstream :=
  match (writeObjectsWithPullSecret m1 options env).2 with
  | Except.error e => ((writeObjectsWithPullSecret m1 options env).1, Except.error e)
  | Except.ok patchFn =>
    prependOps (writeObjectsWithPullSecret m1 options env).1
      (writeKustomization
        (mergeKustomization
          (if patchFn == "" then m1 else
            { m1 with Kustomization :=
                { m1.Kustomization with
                    PatchesStrategicMerge :=
                      m1.Kustomization.PatchesStrategicMerge ++ [patchFn] } })
          existing)
        options env)

/-- Step 3 of WriteMidstream onward: write the pull secret and record its
reference, then continue with the patch stage. -/
def writeMidstreamSecretStage (m : Midstream) (options : WriteOptions) (env : MidstreamEnv)
    (existing : Option Kustomization) : List MOp × Except MidstreamError Midstream :=
  match (writePullSecret m options env).2 with
  | Except.error e => ((writePullSecret m options env).1, Except.error e)
  | Except.ok secretFn =>
    prependOps (writePullSecret m options env).1
      (writeMidstreamPatchStage
        (if secretFn == "" then m else
          { m with Kustomization :=
              { m.Kustomization with Resources := m.Kustomization.Resources ++ [secretFn] } })
        options env existing)

/-- WriteMidstream from pkg/midstream/write.go as a pure state transformer:
load any existing kustomization (a parse failure aborts before any write),
ensure the directory, write the secret and patch files, record their
references, merge with the existing Kustomization, and persist.  Returns the
trace of completed filesystem operations and the final composer state. -/
def WriteMidstream (m : Midstream) (options : WriteOptions) (env : MidstreamEnv) :
    List MOp × Except MidstreamError Midstream :=
  match loadExistingKustomization env with
  | Except.error e => ([], Except.error e)
  | Except.ok existingKustomization =>
    if env.opFails (MOp.mkdirAll options.MidstreamDir) then
      ([], Except.error MidstreamError.mkdirFailed)
    else
      prependOps [MOp.mkdirAll options.MidstreamDir]
        (writeMidstreamSecretStage m options env existingKustomization)

end Kots.midstream

namespace Kots.base

/-- One input file of the base builder: its relative path, raw content, and
the two external inclusion predicates, each taking the excludeKotsKinds
flag (the core only consumes their boolean results). -/
structure BaseFile where
  Path : String
  Content : String
  ShouldBeIncludedInBaseFilesystem : Bool → Bool
  ShouldBeIncludedInBaseKustomization : Bool → Bool

structure Base where
  Files : List BaseFile

structure WriteOptions where
  BaseDir : String
  Overwrite : Bool
  ExcludeKotsKinds : Bool
deriving DecidableEq, Repr

/-- A filesystem operation performed by WriteBase, recorded in a trace. -/
inductive FsOp where
  | removeAll (dir : String)
  | mkdirAll (dir : String)
  | writeFile (path : String) (content : String)
  | writeKustomizationFile (path : String) (k : Kustomization)
deriving DecidableEq, Repr

inductive BaseError where
  | alreadyExists (dir : String)
  | removeFailed
  | mkdirFailed
  | writeFileFailed
  | writeKustomizationFailed
deriving DecidableEq, Repr

/-- The ambient world of one WriteBase call: the os.Stat outcome for BaseDir,
the os.Stat outcome for each parent directory probed inside the file loop,
and which filesystem operations fail. -/
structure BaseEnv where
  statBaseDir : StatOutcome
  statDir : String → StatOutcome := fun _ => StatOutcome.errNotExist
  opFails : FsOp → Bool := fun _ => false

/-- One iteration of the WriteBase file loop: skip a file excluded
everywhere, record a dot-joined path when the file is included in the
kustomization, and when the file is included in the filesystem create the
parent directory (when the probe says it does not exist) and write the file.
Returns the completed operations, the resource entries this file
contributes, and the error of the first failing operation. -/
def writeBaseOneFile (env : BaseEnv) (renderDir : String) (exclude : Bool) (file : BaseFile) :
    List FsOp × List String × Option BaseError :=
  let writeToBase := file.ShouldBeIncludedInBaseFilesystem exclude
  let writeToKustomization := file.ShouldBeIncludedInBaseKustomization exclude
  if !writeToBase && !writeToKustomization then ([], [], none)
  else
    let resourcesHere := if writeToKustomization then [goPathJoin "." file.Path] else []
    if writeToBase then
      let fileRenderPath := goPathJoin renderDir file.Path
      let d := (goPathSplit fileRenderPath).1
      if env.statDir d = StatOutcome.errNotExist then
        if env.opFails (FsOp.mkdirAll d) then ([], resourcesHere, some BaseError.mkdirFailed)
        else if env.opFails (FsOp.writeFile fileRenderPath file.Content) then
          ([FsOp.mkdirAll d], resourcesHere, some BaseError.writeFileFailed)
        else
          ([FsOp.mkdirAll d, FsOp.writeFile fileRenderPath file.Content], resourcesHere, none)
      else
        if env.opFails (FsOp.writeFile fileRenderPath file.Content) then
          ([], resourcesHere, some BaseError.writeFileFailed)
        else ([FsOp.writeFile fileRenderPath file.Content], resourcesHere, none)
    else ([], resourcesHere, none)

/-- Sequencing of two loop stages: stop at the first stage's error, otherwise
concatenate operations and resources and keep the second stage's error. -/
def writeBaseStep (first rest : List FsOp × List String × Option BaseError) :
    List FsOp × List String × Option BaseError :=
  match first with
  | (ops, res, some e) => (ops, res, some e)
  | (ops, res, none) => (ops ++ rest.1, res ++ rest.2.1, rest.2.2)

/-- The WriteBase file loop: process the files in order, concatenating the
completed operations and contributed resource entries, stopping at the first
error. -/
def writeBaseFiles (env : BaseEnv) (renderDir : String) (exclude : Bool) :
    List BaseFile → List FsOp × List String × Option BaseError
  | [] => ([], [], none)
  | file :: rest =>
    writeBaseStep (writeBaseOneFile env renderDir exclude file)
      (writeBaseFiles env renderDir exclude rest)

/-- The final stage of WriteBase: after the file loop, always write a fresh
kustomization.yaml built purely from the resource list accumulated in this
call (no merge with any pre-existing base Kustomization). -/
def writeBaseFinish (options : WriteOptions) (env : BaseEnv)
    (r : List FsOp × List String × Option BaseError) : List FsOp × Option BaseError :=
  match r with
  | (ops, _, some e) => (ops, some e)
  | (ops, kustomizeResources, none) =>
    let kustomization : Kustomization :=
      { APIVersion := "kustomize.config.k8s.io/v1beta1"
        Kind := "Kustomization"
        Resources := kustomizeResources }
    let op := FsOp.writeKustomizationFile (goPathJoin options.BaseDir "kustomization.yaml") kustomization
    if env.opFails op then (ops, some BaseError.writeKustomizationFailed)
    else (ops ++ [op], none)

/-- The body of WriteBase after the overwrite guard. -/
def writeBaseBody (b : Base) (options : WriteOptions) (env : BaseEnv) :
    List FsOp × Option BaseError :=
  writeBaseFinish options env
    (writeBaseFiles env options.BaseDir options.ExcludeKotsKinds b.Files)

/-- WriteBase from pkg/base: when stat on BaseDir returns a nil error, either
remove the directory first (Overwrite) or fail with the already-exists error;
on any stat error the guard is skipped and the body runs as a fresh write. -/
def WriteBase (b : Base) (options : WriteOptions) (env : BaseEnv) :
    List FsOp × Option BaseError :=
  match env.statBaseDir with
  | StatOutcome.ok =>
    if options.Overwrite then
      if env.opFails (FsOp.removeAll options.BaseDir) then
        ([], some BaseError.removeFailed)
      else
        (FsOp.removeAll options.BaseDir :: (writeBaseBody b options env).1,
         (writeBaseBody b options env).2)
    else ([], some (BaseError.alreadyExists options.BaseDir))
  | _ => writeBaseBody b options env

/-- GetOverlaysDir from pkg/base: the sibling overlays directory, a
three-element Go path.Join of BaseDir, dot-dot and overlays. -/
def GetOverlaysDir (options : WriteOptions) : String :=
  let elems := [options.BaseDir.data, ['.', '.'], "overlays".data].filter (fun e => !(e.isEmpty))
  if elems.isEmpty then ""
  else String.mk (goPathCleanChars (joinPathAux elems))

def FsOp.isRemoveAll : FsOp → Bool
  | FsOp.removeAll _ => true
  | _ => false

/-- The kustomizations persisted in a trace, in order. -/
def kustomizationsWritten (ops : List FsOp) : List Kustomization :=
  ops.filterMap fun op =>
    match op with
    | FsOp.writeKustomizationFile _ k => some k
    | _ => none

/-- Concrete input for exercising a fresh WriteBase run: one file in both
lists, one file excluded from the kustomization, a repeated path. -/
def sampleBase : Base :=
  { Files := [{ Path := "deployment.yaml", Content := "kind: Deployment",
                ShouldBeIncludedInBaseFilesystem := fun _ => true,
                ShouldBeIncludedInBaseKustomization := fun _ => true },
              { Path := "config.yaml", Content := "kind: ConfigMap",
                ShouldBeIncludedInBaseFilesystem := fun _ => true,
                ShouldBeIncludedInBaseKustomization := fun _ => false },
              { Path := "deployment.yaml", Content := "kind: Deployment",
                ShouldBeIncludedInBaseFilesystem := fun _ => false,
                ShouldBeIncludedInBaseKustomization := fun _ => true }] }

def sampleBaseOptions : WriteOptions :=
  { BaseDir := "base", Overwrite := false, ExcludeKotsKinds := false }

def sampleBaseEnv : BaseEnv := { statBaseDir := StatOutcome.errNotExist }

end Kots.base

namespace Kots.midstream

/-- The composer state after recording the secret reference: unchanged
without a pull secret, otherwise the secret filename is appended to the
resources. -/
def withSecretRef (m : Midstream) : Midstream :=
  match m.PullSecret with
  | none => m
  | some _ =>
    { m with Kustomization :=
        { m.Kustomization with Resources := m.Kustomization.Resources ++ [secretFilename] } }

/-- The composer state after recording the patch-file reference: unchanged
without documents to patch, otherwise the patches filename is appended. -/
def withPatchRef (m : Midstream) : Midstream :=
  if m.DocForPatches.length == 0 then m
  else
    { m with Kustomization :=
        { m.Kustomization with
            PatchesStrategicMerge := m.Kustomization.PatchesStrategicMerge ++ [patchesFilename] } }

/-- The existing Kustomization a WriteMidstream call observes: present only
when stat succeeds and the file parses. -/
def existingOf (env : MidstreamEnv) : Option Kustomization :=
  match env.statKustomizationFile with
  | StatOutcome.ok =>
    match env.readKustomization with
    | some k => some k
    | none => none
  | _ => none

/-- The resources of the existing Kustomization a call observes, empty when
none is observed. -/
def existingResources (env : MidstreamEnv) : List String :=
  match existingOf env with
  | some k => k.Resources
  | none => []

def MOp.isWriteSecretFile : MOp → Bool
  | MOp.writeSecretFile _ _ => true
  | _ => false

def MOp.isWritePatchesFile : MOp → Bool
  | MOp.writePatchesFile _ _ => true
  | _ => false

/-- A sample document needing pull-secret injection. -/
def sampleDoc : Doc :=
  { APIVersion := "apps/v1", Kind := "Deployment", Metadata := { Name := "myapp" } }

def sampleSecret : Secret := { Name := "registry-creds" }

def sampleOptions : WriteOptions := { MidstreamDir := "overlays/midstream", BaseDir := "base" }

/-- A fresh-render environment: no existing kustomization, all writes
succeed. -/
def sampleFreshEnv : MidstreamEnv :=
  { statKustomizationFile := StatOutcome.errNotExist
    readKustomization := none
    relPath := fun _ _ => some "../../base" }

/-- An environment where the existing kustomization.yaml exists but does not
parse. -/
def parseFailEnv : MidstreamEnv :=
  { statKustomizationFile := StatOutcome.ok
    readKustomization := none
    relPath := fun _ _ => some "../../base" }

/-- A composer with a pull secret and one document to patch. -/
def sampleMidstream : Midstream :=
  { Kustomization := { Resources := ["deployment.yaml"] }
    PullSecret := some sampleSecret
    DocForPatches := [sampleDoc] }

/-- A composer with no pull secret. -/
def sampleNoSecret : Midstream :=
  { Kustomization := { Resources := ["deployment.yaml"] }
    PullSecret := none
    DocForPatches := [sampleDoc] }

/-- The concrete result of the sample successful render. -/
def sampleResult : Midstream :=
  match (WriteMidstream sampleMidstream sampleOptions sampleFreshEnv).2 with
  | Except.ok r2 => r2
  | Except.error _ => sampleMidstream

end Kots.midstream

namespace Kots

example : goPathJoin "." "deployment.yaml" = "deployment.yaml" := by decide

example : goPathJoin "base" "sub/deployment.yaml" = "base/sub/deployment.yaml" := by decide

example : goPathSplit "base/sub/deployment.yaml" = ("base/sub/", "deployment.yaml") := by decide

end Kots

namespace Kots.midstream

theorem mergeKustomization_none (m : Midstream) : mergeKustomization m none = m := rfl

theorem mergeKustomization_some_Resources (m : Midstream) (ex : Kustomization) :
    (mergeKustomization m (some ex)).Kustomization.Resources =
      ex.Resources ++ findNewStrings m.Kustomization.Resources ex.Resources := rfl

theorem mergeKustomization_some_Patches (m : Midstream) (ex : Kustomization) :
    (mergeKustomization m (some ex)).Kustomization.PatchesStrategicMerge =
      ex.PatchesStrategicMerge ++
        findNewPatches m.Kustomization.PatchesStrategicMerge ex.PatchesStrategicMerge := rfl

theorem mergeKustomization_some_Images (m : Midstream) (ex : Kustomization) :
    (mergeKustomization m (some ex)).Kustomization.Images =
      m.Kustomization.Images ++ removeExistingImages m.Kustomization.Images ex.Images := rfl

theorem mergeKustomization_some_Bases (m : Midstream) (ex : Kustomization) :
    (mergeKustomization m (some ex)).Kustomization.Bases = m.Kustomization.Bases := rfl

/-- Every newly computed resource survives the merge, whatever the existing
state was. -/
theorem mem_merge_Resources_of_mem_new (m : Midstream) (exOpt : Option Kustomization)
    (r : String) (h : r ∈ m.Kustomization.Resources) :
    r ∈ (mergeKustomization m exOpt).Kustomization.Resources := by
  cases exOpt with
  | none => simpa [mergeKustomization] using h
  | some ex =>
    rw [mergeKustomization_some_Resources]
    by_cases hex : r ∈ ex.Resources
    · exact List.mem_append_left _ hex
    · refine List.mem_append_right _ ?_
      simp [findNewStrings, List.mem_filter, h, hex]

/-- Every existing resource survives the merge. -/
theorem mem_merge_Resources_of_mem_existing (m : Midstream) (ex : Kustomization)
    (r : String) (h : r ∈ ex.Resources) :
    r ∈ (mergeKustomization m (some ex)).Kustomization.Resources := by
  rw [mergeKustomization_some_Resources]
  exact List.mem_append_left _ h

/-- Every newly computed strategic-merge patch survives the merge. -/
theorem mem_merge_Patches_of_mem_new (m : Midstream) (exOpt : Option Kustomization)
    (p : String) (h : p ∈ m.Kustomization.PatchesStrategicMerge) :
    p ∈ (mergeKustomization m exOpt).Kustomization.PatchesStrategicMerge := by
  cases exOpt with
  | none => simpa [mergeKustomization] using h
  | some ex =>
    rw [mergeKustomization_some_Patches]
    by_cases hex : p ∈ ex.PatchesStrategicMerge
    · exact List.mem_append_left _ hex
    · refine List.mem_append_right _ ?_
      simp [findNewPatches, List.mem_filter, h, hex]

/-- C1 (amended): in the merge of a newly computed midstream Kustomization
with an existing one, the image list is the newly computed list followed by
the existing entries whose name does not occur among the new names: every new
entry survives, an existing entry with an unclaimed name survives, and an
existing entry whose name is claimed by a new entry is dropped unless it is
itself one of the new entries.  New entries win name conflicts, not existing
ones. -/
theorem mergeKustomization_images_new_entries_win (m : Midstream) (ex : Kustomization) :
    (∀ img ∈ m.Kustomization.Images,
        img ∈ (mergeKustomization m (some ex)).Kustomization.Images) ∧
    (∀ img ∈ ex.Images, (∀ n ∈ m.Kustomization.Images, n.Name ≠ img.Name) →
        img ∈ (mergeKustomization m (some ex)).Kustomization.Images) ∧
    (∀ img ∈ ex.Images, (∃ n ∈ m.Kustomization.Images, n.Name = img.Name) →
        img ∉ m.Kustomization.Images →
        img ∉ (mergeKustomization m (some ex)).Kustomization.Images) := by
  refine ⟨?_, ?_, ?_⟩
  · intro img h
    rw [mergeKustomization_some_Images]
    exact List.mem_append_left _ h
  · intro img h hnames
    rw [mergeKustomization_some_Images]
    refine List.mem_append_right _ ?_
    simp only [removeExistingImages, List.mem_filter, h, true_and,
      Bool.not_eq_true', List.any_eq_false]
    intro n hn
    simpa using hnames n hn
  · intro img _ hconflict hnotnew
    rw [mergeKustomization_some_Images]
    intro hmem
    rcases List.mem_append.mp hmem with hL | hR
    · exact hnotnew hL
    · rcases hconflict with ⟨n, hn, hname⟩
      have := (List.mem_filter.mp hR).2
      simp only [Bool.not_eq_true', List.any_eq_false] at this
      have := this n hn
      simp [hname] at this

/-- C1 counterexample: with an existing image-rewrite entry for name myapp
(tag old) and a newly computed entry for the same name (tag new), the merged
list keeps the new entry and drops the existing one, contradicting the claim
that the existing entry wins and the new one is absent. -/
theorem mergeKustomization_images_existing_entry_lost :
    ((⟨"myapp", "", "old", ""⟩ : Image) ∉
      (mergeKustomization
        { Kustomization := { Images := [⟨"myapp", "", "new", ""⟩] } }
        (some { Images := [⟨"myapp", "", "old", ""⟩] })).Kustomization.Images) ∧
    ((⟨"myapp", "", "new", ""⟩ : Image) ∈
      (mergeKustomization
        { Kustomization := { Images := [⟨"myapp", "", "new", ""⟩] } }
        (some { Images := [⟨"myapp", "", "old", ""⟩] })).Kustomization.Images) := by
  decide

/-- C2 (amended): the merge is monotone for resources and patches (the
existing list is the unchanged front segment and exactly the genuinely new
entries are appended, so everything from either side is present), while for
images the newly computed list is the front segment and an existing image
entry survives only when its name is not claimed by a new entry. -/
theorem mergeKustomization_monotone_outside_images (m : Midstream) (ex : Kustomization) :
    (∃ t, (mergeKustomization m (some ex)).Kustomization.Resources = ex.Resources ++ t) ∧
    (∀ r ∈ ex.Resources, r ∈ (mergeKustomization m (some ex)).Kustomization.Resources) ∧
    (∀ r ∈ m.Kustomization.Resources,
        r ∈ (mergeKustomization m (some ex)).Kustomization.Resources) ∧
    (∃ t, (mergeKustomization m (some ex)).Kustomization.PatchesStrategicMerge =
        ex.PatchesStrategicMerge ++ t) ∧
    (∀ p ∈ ex.PatchesStrategicMerge,
        p ∈ (mergeKustomization m (some ex)).Kustomization.PatchesStrategicMerge) ∧
    (∀ p ∈ m.Kustomization.PatchesStrategicMerge,
        p ∈ (mergeKustomization m (some ex)).Kustomization.PatchesStrategicMerge) ∧
    (∃ t, (mergeKustomization m (some ex)).Kustomization.Images =
        m.Kustomization.Images ++ t) ∧
    (∀ img ∈ ex.Images, img ∈ (mergeKustomization m (some ex)).Kustomization.Images ∨
        ∃ n ∈ m.Kustomization.Images, n.Name = img.Name) := by
  refine ⟨⟨_, mergeKustomization_some_Resources m ex⟩,
    fun r h => mem_merge_Resources_of_mem_existing m ex r h,
    fun r h => mem_merge_Resources_of_mem_new m (some ex) r h,
    ⟨_, mergeKustomization_some_Patches m ex⟩,
    ?_,
    fun p h => mem_merge_Patches_of_mem_new m (some ex) p h,
    ⟨_, mergeKustomization_some_Images m ex⟩, ?_⟩
  · intro p h
    rw [mergeKustomization_some_Patches]
    exact List.mem_append_left _ h
  · intro img h
    by_cases hc : ∃ n ∈ m.Kustomization.Images, n.Name = img.Name
    · exact Or.inr hc
    · refine Or.inl ?_
      rw [mergeKustomization_some_Images]
      refine List.mem_append_right _ ?_
      simp only [removeExistingImages, List.mem_filter, h, true_and,
        Bool.not_eq_true', List.any_eq_false]
      intro n hn
      have : ¬ n.Name = img.Name := fun he => hc ⟨n, hn, he⟩
      simpa using this

/-- C2 counterexample: an existing image entry whose name is also produced by
the new computation is absent from the merged image list, so the merged
result does not contain every image entry of the two inputs and the existing
list is not a front segment of the merged image list. -/
theorem mergeKustomization_existing_image_not_contained :
    (⟨"nginx", "", "1.0", ""⟩ : Image) ∉
      (mergeKustomization
        { Kustomization := { Images := [⟨"nginx", "", "2.0", ""⟩] } }
        (some { Images := [⟨"nginx", "", "1.0", ""⟩] })).Kustomization.Images := by
  decide

/-- C3 (amended): the merged resource list is duplicate-free whenever both
input lists are duplicate-free; duplicate detection only compares new entries
against the pre-existing list, so a duplicate already inside either input
list survives the merge. -/
theorem mergeKustomization_Resources_nodup (m : Midstream) (ex : Kustomization)
    (hex : ex.Resources.Nodup) (hnew : m.Kustomization.Resources.Nodup) :
    (mergeKustomization m (some ex)).Kustomization.Resources.Nodup := by
  rw [mergeKustomization_some_Resources]
  refine List.Nodup.append ?_ ?_ ?_
  · exact hex
  · exact hnew.filter _
  · intro a ha hb
    have := (List.mem_filter.mp hb).2
    simp only [Bool.not_eq_true'] at this
    simp at this
    exact this ha

/-- C3 amended-claim witness at concrete duplicate-free inputs. -/
theorem mergeKustomization_Resources_nodup_witness :
    (mergeKustomization { Kustomization := { Resources := ["b.yaml", "c.yaml"] } }
      (some { Resources := ["a.yaml", "b.yaml"] })).Kustomization.Resources.Nodup :=
  mergeKustomization_Resources_nodup _ _ (by decide) (by decide)

/-- C3 counterexample: a duplicate inside the pre-existing resource list
survives the merge, so the merged Resources list can contain a path twice. -/
theorem mergeKustomization_Resources_duplicate_survives :
    ¬ (mergeKustomization { Kustomization := { Resources := [] } }
        (some { Resources := ["a.yaml", "a.yaml"] })).Kustomization.Resources.Nodup := by
  decide

end Kots.midstream

namespace Kots.base

theorem writeBaseStep_some (ops : List FsOp) (res : List String) (e : BaseError)
    (r : List FsOp × List String × Option BaseError) :
    writeBaseStep (ops, res, some e) r = (ops, res, some e) := rfl

theorem writeBaseStep_none (ops : List FsOp) (res : List String)
    (r : List FsOp × List String × Option BaseError) :
    writeBaseStep (ops, res, none) r = (ops ++ r.1, res ++ r.2.1, r.2.2) := rfl

/-- Splits the result of a loop stage into components with the same error. -/
theorem writeBaseStep_eta (first r : List FsOp × List String × Option BaseError) :
    writeBaseStep first r =
      match first.2.2 with
      | some e => (first.1, first.2.1, some e)
      | none => (first.1 ++ r.1, first.2.1 ++ r.2.1, r.2.2) := by
  rcases first with ⟨ops, res, err⟩
  cases err <;> rfl

/-- A single loop iteration performs only mkdir and file-write operations. -/
theorem writeBaseOneFile_ops_shape (env : BaseEnv) (renderDir : String) (exclude : Bool)
    (file : BaseFile) :
    ((writeBaseOneFile env renderDir exclude file).1.all
      (fun op => !op.isRemoveAll && (kustomizationsWritten [op]).isEmpty)) = true := by
  simp only [writeBaseOneFile]
  split
  · rfl
  · split
    · split
      · split
        · rfl
        · split <;> rfl
      · split <;> rfl
    · rfl

/-- A single loop iteration fails only with a mkdir or file-write error. -/
theorem writeBaseOneFile_err_shape (env : BaseEnv) (renderDir : String) (exclude : Bool)
    (file : BaseFile) :
    (writeBaseOneFile env renderDir exclude file).2.2 = none ∨
    (writeBaseOneFile env renderDir exclude file).2.2 = some BaseError.mkdirFailed ∨
    (writeBaseOneFile env renderDir exclude file).2.2 = some BaseError.writeFileFailed := by
  simp only [writeBaseOneFile]
  split
  · exact Or.inl rfl
  · split
    · split
      · split
        · exact Or.inr (Or.inl rfl)
        · split
          · exact Or.inr (Or.inr rfl)
          · exact Or.inl rfl
      · split
        · exact Or.inr (Or.inr rfl)
        · exact Or.inl rfl
    · exact Or.inl rfl

/-- A single loop iteration contributes exactly the dot-joined path of its
file when the base-kustomization inclusion predicate accepts it, and nothing
otherwise. -/
theorem writeBaseOneFile_resources (env : BaseEnv) (renderDir : String) (exclude : Bool)
    (file : BaseFile) :
    (writeBaseOneFile env renderDir exclude file).2.1 =
      if file.ShouldBeIncludedInBaseKustomization exclude then [goPathJoin "." file.Path]
      else [] := by
  simp only [writeBaseOneFile]
  split
  · rename_i hskip
    have hk : file.ShouldBeIncludedInBaseKustomization exclude = false := by
      revert hskip
      cases file.ShouldBeIncludedInBaseKustomization exclude <;>
        cases file.ShouldBeIncludedInBaseFilesystem exclude <;> simp
    rw [hk]
    rfl
  · split
    · split
      · split
        · rfl
        · split <;> rfl
      · split <;> rfl
    · rfl

/-- The file loop performs only mkdir and file-write operations. -/
theorem writeBaseFiles_ops_shape (env : BaseEnv) (renderDir : String) (exclude : Bool)
    (files : List BaseFile) :
    ((writeBaseFiles env renderDir exclude files).1.all
      (fun op => !op.isRemoveAll && (kustomizationsWritten [op]).isEmpty)) = true := by
  induction files with
  | nil => rfl
  | cons file rest ih =>
    have h1 := writeBaseOneFile_ops_shape env renderDir exclude file
    rw [writeBaseFiles, writeBaseStep_eta]
    cases herr : (writeBaseOneFile env renderDir exclude file).2.2 with
    | some e => simpa using h1
    | none =>
      simp only [List.all_append]
      rw [h1, ih]
      rfl

/-- The file loop fails only with a mkdir or file-write error. -/
theorem writeBaseFiles_err_shape (env : BaseEnv) (renderDir : String) (exclude : Bool)
    (files : List BaseFile) :
    (writeBaseFiles env renderDir exclude files).2.2 = none ∨
    (writeBaseFiles env renderDir exclude files).2.2 = some BaseError.mkdirFailed ∨
    (writeBaseFiles env renderDir exclude files).2.2 = some BaseError.writeFileFailed := by
  induction files with
  | nil => exact Or.inl rfl
  | cons file rest ih =>
    have h1 := writeBaseOneFile_err_shape env renderDir exclude file
    rw [writeBaseFiles, writeBaseStep_eta]
    cases herr : (writeBaseOneFile env renderDir exclude file).2.2 with
    | some e =>
      rw [herr] at h1
      simpa using h1
    | none => simpa using ih

/-- On a run of the file loop that reports no error, the accumulated resource
list is exactly the dot-joined path of every input file accepted by the
base-kustomization inclusion predicate, in input order. -/
theorem writeBaseFiles_resources (env : BaseEnv) (renderDir : String) (exclude : Bool)
    (files : List BaseFile)
    (h : (writeBaseFiles env renderDir exclude files).2.2 = none) :
    (writeBaseFiles env renderDir exclude files).2.1 =
      (files.filter (fun f => f.ShouldBeIncludedInBaseKustomization exclude)).map
        (fun f => goPathJoin "." f.Path) := by
  induction files with
  | nil => rfl
  | cons file rest ih =>
    have h1 := writeBaseOneFile_resources env renderDir exclude file
    rw [writeBaseFiles, writeBaseStep_eta] at h ⊢
    cases herr : (writeBaseOneFile env renderDir exclude file).2.2 with
    | some e => simp [herr] at h
    | none =>
      rw [herr] at h
      simp only at h ⊢
      rw [List.filter_cons]
      cases hk : file.ShouldBeIncludedInBaseKustomization exclude with
      | false =>
        simp only [hk] at h1
        simp [h1, ih h]
      | true =>
        simp only [hk] at h1
        simp [h1, ih h]

/-- A trace whose every operation is remove-free and kustomization-free
writes no kustomization. -/
theorem kustomizationsWritten_eq_nil (ops : List FsOp)
    (h : (ops.all fun op => !op.isRemoveAll && (kustomizationsWritten [op]).isEmpty) = true) :
    kustomizationsWritten ops = [] := by
  induction ops with
  | nil => rfl
  | cons op rest ih =>
    simp only [List.all_cons, Bool.and_eq_true] at h
    obtain ⟨⟨_, hk⟩, hrest⟩ := h
    cases op <;> simp_all [kustomizationsWritten, List.all_eq_true, List.filterMap_cons]

/-- The file loop never removes a directory. -/
theorem writeBaseFiles_no_removeAll (env : BaseEnv) (renderDir : String) (exclude : Bool)
    (files : List BaseFile) :
    ((writeBaseFiles env renderDir exclude files).1.all fun op => !op.isRemoveAll) = true := by
  have h := writeBaseFiles_ops_shape env renderDir exclude files
  simp only [List.all_eq_true, Bool.and_eq_true] at h ⊢
  intro op hop
  exact (h op hop).1

/-- The file loop writes no kustomization. -/
theorem writeBaseFiles_writes_no_kustomization (env : BaseEnv) (renderDir : String)
    (exclude : Bool) (files : List BaseFile) :
    kustomizationsWritten (writeBaseFiles env renderDir exclude files).1 = [] :=
  kustomizationsWritten_eq_nil _ (writeBaseFiles_ops_shape env renderDir exclude files)

/-- On a successful body run the trace persists exactly one kustomization:
the fresh one whose resource list is the dot-joined path of every input file
accepted by the base-kustomization inclusion predicate, in input order. -/
theorem writeBaseBody_ok (b : Base) (options : WriteOptions) (env : BaseEnv)
    (hok : (writeBaseBody b options env).2 = none) :
    kustomizationsWritten (writeBaseBody b options env).1 =
      [{ APIVersion := "kustomize.config.k8s.io/v1beta1"
         Kind := "Kustomization"
         Resources := (b.Files.filter
             (fun f => f.ShouldBeIncludedInBaseKustomization options.ExcludeKotsKinds)).map
           (fun f => goPathJoin "." f.Path) }] := by
  have hres := writeBaseFiles_resources env options.BaseDir options.ExcludeKotsKinds b.Files
  have hnil := writeBaseFiles_writes_no_kustomization env options.BaseDir
    options.ExcludeKotsKinds b.Files
  unfold writeBaseBody writeBaseFinish at hok ⊢
  rcases hr : writeBaseFiles env options.BaseDir options.ExcludeKotsKinds b.Files with
    ⟨ops, res, err⟩
  rw [hr] at hok hres hnil
  cases err with
  | some e => simp at hok
  | none =>
    have hres2 := hres rfl
    simp only at hok hres2 hnil ⊢
    split at hok
    · simp at hok
    · rename_i hfail
      rw [if_neg hfail]
      simp only [kustomizationsWritten, List.filterMap_append] at hnil ⊢
      rw [hnil, hres2]
      rfl

/-- The body of WriteBase never removes a directory. -/
theorem writeBaseBody_no_removeAll (b : Base) (options : WriteOptions) (env : BaseEnv) :
    ((writeBaseBody b options env).1.all fun op => !op.isRemoveAll) = true := by
  have hall := writeBaseFiles_no_removeAll env options.BaseDir options.ExcludeKotsKinds b.Files
  unfold writeBaseBody writeBaseFinish
  rcases hr : writeBaseFiles env options.BaseDir options.ExcludeKotsKinds b.Files with
    ⟨ops, res, err⟩
  rw [hr] at hall
  cases err with
  | some e => simpa using hall
  | none =>
    simp only at hall ⊢
    split
    · simpa using hall
    · simp only [List.all_append]
      rw [hall]
      rfl

/-- The body of WriteBase never reports the already-exists error. -/
theorem writeBaseBody_err_not_alreadyExists (b : Base) (options : WriteOptions) (env : BaseEnv)
    (d : String) :
    (writeBaseBody b options env).2 ≠ some (BaseError.alreadyExists d) := by
  have herr := writeBaseFiles_err_shape env options.BaseDir options.ExcludeKotsKinds b.Files
  unfold writeBaseBody writeBaseFinish
  rcases hr : writeBaseFiles env options.BaseDir options.ExcludeKotsKinds b.Files with
    ⟨ops, res, err⟩
  rw [hr] at herr
  cases err with
  | some e =>
    simp only at herr ⊢
    rcases herr with h | h | h <;> simp_all
  | none =>
    simp only
    split <;> simp

/-- With a failing stat on BaseDir the guard is skipped and WriteBase is its
body. -/
theorem WriteBase_eq_body (b : Base) (options : WriteOptions) (env : BaseEnv)
    (hstat : env.statBaseDir ≠ StatOutcome.ok) :
    WriteBase b options env = writeBaseBody b options env := by
  unfold WriteBase
  cases hs : env.statBaseDir with
  | ok => exact absurd hs hstat
  | errNotExist => rfl
  | errPermission => rfl
  | errOther => rfl

/-- With an existing BaseDir and Overwrite unset, WriteBase fails with the
already-exists error and an empty trace. -/
theorem WriteBase_eq_alreadyExists (b : Base) (options : WriteOptions) (env : BaseEnv)
    (hstat : env.statBaseDir = StatOutcome.ok) (hover : options.Overwrite = false) :
    WriteBase b options env = ([], some (BaseError.alreadyExists options.BaseDir)) := by
  unfold WriteBase
  rw [hstat, hover]
  simp

/-- With an existing BaseDir, Overwrite set, and a succeeding removal,
WriteBase is the removal followed by its body. -/
theorem WriteBase_eq_remove_body (b : Base) (options : WriteOptions) (env : BaseEnv)
    (hstat : env.statBaseDir = StatOutcome.ok) (hover : options.Overwrite = true)
    (hrm : env.opFails (FsOp.removeAll options.BaseDir) = false) :
    WriteBase b options env =
      (FsOp.removeAll options.BaseDir :: (writeBaseBody b options env).1,
       (writeBaseBody b options env).2) := by
  unfold WriteBase
  rw [hstat, hover, hrm]
  simp

/-- With an existing BaseDir, Overwrite set, and a failing removal, WriteBase
fails with the removal error. -/
theorem WriteBase_eq_removeFailed (b : Base) (options : WriteOptions) (env : BaseEnv)
    (hstat : env.statBaseDir = StatOutcome.ok) (hover : options.Overwrite = true)
    (hrm : env.opFails (FsOp.removeAll options.BaseDir) = true) :
    WriteBase b options env = ([], some BaseError.removeFailed) := by
  unfold WriteBase
  rw [hstat, hover, hrm]
  simp

/-- C4: when stat on BaseDir reports that the directory exists and Overwrite
is false, WriteBase fails immediately with the already-exists error for that
directory and performs no filesystem operation at all. -/
theorem WriteBase_already_exists (b : Base) (options : WriteOptions) (env : BaseEnv)
    (hstat : env.statBaseDir = StatOutcome.ok) (hover : options.Overwrite = false) :
    WriteBase b options env = ([], some (BaseError.alreadyExists options.BaseDir)) :=
  WriteBase_eq_alreadyExists b options env hstat hover

/-- C4 witness: a concrete call with an existing directory and no overwrite
permission returns the already-exists error with an empty trace. -/
theorem WriteBase_already_exists_witness :
    WriteBase
      { Files := [{ Path := "deployment.yaml", Content := "kind: Deployment",
                    ShouldBeIncludedInBaseFilesystem := fun _ => true,
                    ShouldBeIncludedInBaseKustomization := fun _ => true }] }
      { BaseDir := "base", Overwrite := false, ExcludeKotsKinds := false }
      { statBaseDir := StatOutcome.ok } =
      ([], some (BaseError.alreadyExists "base")) :=
  WriteBase_already_exists _ _ _ rfl rfl

/-- C9: every successful WriteBase call persists exactly one kustomization,
built purely from this call: its resource list is the dot-joined relative
path of each input file accepted by the base-kustomization inclusion
predicate, in input order and without deduplication, and its remaining fields
are fresh (no merge with any pre-existing base Kustomization). -/
theorem WriteBase_fresh_kustomization (b : Base) (options : WriteOptions) (env : BaseEnv)
    (hok : (WriteBase b options env).2 = none) :
    kustomizationsWritten (WriteBase b options env).1 =
      [{ APIVersion := "kustomize.config.k8s.io/v1beta1"
         Kind := "Kustomization"
         Resources := (b.Files.filter
             (fun f => f.ShouldBeIncludedInBaseKustomization options.ExcludeKotsKinds)).map
           (fun f => goPathJoin "." f.Path) }] := by
  cases hstat : env.statBaseDir with
  | ok =>
    cases hover : options.Overwrite with
    | false =>
      rw [WriteBase_eq_alreadyExists b options env hstat hover] at hok
      simp at hok
    | true =>
      cases hrm : env.opFails (FsOp.removeAll options.BaseDir) with
      | true =>
        rw [WriteBase_eq_removeFailed b options env hstat hover hrm] at hok
        simp at hok
      | false =>
        rw [WriteBase_eq_remove_body b options env hstat hover hrm] at hok ⊢
        simp only at hok
        have hbody := writeBaseBody_ok b options env hok
        simp only [kustomizationsWritten, List.filterMap_cons] at hbody ⊢
        exact hbody
  | errNotExist =>
    rw [WriteBase_eq_body b options env (by rw [hstat]; simp)] at hok ⊢
    exact writeBaseBody_ok b options env hok
  | errPermission =>
    rw [WriteBase_eq_body b options env (by rw [hstat]; simp)] at hok ⊢
    exact writeBaseBody_ok b options env hok
  | errOther =>
    rw [WriteBase_eq_body b options env (by rw [hstat]; simp)] at hok ⊢
    exact writeBaseBody_ok b options env hok

/-- C9 witness: on the concrete fresh run the single persisted kustomization
lists exactly the accepted paths, in order, with the duplicate kept. -/
theorem WriteBase_fresh_kustomization_witness :
    kustomizationsWritten (WriteBase sampleBase sampleBaseOptions sampleBaseEnv).1 =
      [{ APIVersion := "kustomize.config.k8s.io/v1beta1"
         Kind := "Kustomization"
         Resources := ["deployment.yaml", "deployment.yaml"] }] :=
  (WriteBase_fresh_kustomization sampleBase sampleBaseOptions sampleBaseEnv rfl).trans
    (by decide)

/-- C10: when stat on BaseDir fails for any reason, not only non-existence,
WriteBase skips the overwrite guard entirely: it proceeds exactly as a fresh
write of the body, removes nothing, and never returns the already-exists
error, even with Overwrite false. -/
theorem WriteBase_stat_error_fresh_write (b : Base) (options : WriteOptions) (env : BaseEnv)
    (hstat : env.statBaseDir ≠ StatOutcome.ok) :
    WriteBase b options env = writeBaseBody b options env ∧
    ((WriteBase b options env).1.all fun op => !op.isRemoveAll) = true ∧
    ∀ d, (WriteBase b options env).2 ≠ some (BaseError.alreadyExists d) := by
  have heq : WriteBase b options env = writeBaseBody b options env := by
    unfold WriteBase
    cases hs : env.statBaseDir with
    | ok => exact absurd hs hstat
    | errNotExist => rfl
    | errPermission => rfl
    | errOther => rfl
  refine ⟨heq, ?_, ?_⟩
  · rw [heq]
    exact writeBaseBody_no_removeAll b options env
  · rw [heq]
    exact fun d => writeBaseBody_err_not_alreadyExists b options env d

/-- C10 witness: a concrete call where stat fails with a permission error and
Overwrite is false still runs as a fresh write, with no removal and no
already-exists error. -/
theorem WriteBase_stat_error_fresh_write_witness :
    (WriteBase
        { Files := [{ Path := "deployment.yaml", Content := "kind: Deployment",
                      ShouldBeIncludedInBaseFilesystem := fun _ => true,
                      ShouldBeIncludedInBaseKustomization := fun _ => true }] }
        { BaseDir := "base", Overwrite := false, ExcludeKotsKinds := false }
        { statBaseDir := StatOutcome.errPermission }).1.all (fun op => !op.isRemoveAll) = true ∧
    (WriteBase
        { Files := [{ Path := "deployment.yaml", Content := "kind: Deployment",
                      ShouldBeIncludedInBaseFilesystem := fun _ => true,
                      ShouldBeIncludedInBaseKustomization := fun _ => true }] }
        { BaseDir := "base", Overwrite := false, ExcludeKotsKinds := false }
        { statBaseDir := StatOutcome.errPermission }).2 ≠
      some (BaseError.alreadyExists "base") :=
  ⟨(WriteBase_stat_error_fresh_write _ _ _ (by simp)).2.1,
   (WriteBase_stat_error_fresh_write _ _ _ (by simp)).2.2 "base"⟩

end Kots.base

namespace Kots.midstream

theorem withSecretRef_none (m : Midstream) (h : m.PullSecret = none) : withSecretRef m = m := by
  unfold withSecretRef
  rw [h]

theorem withSecretRef_DocForPatches (m : Midstream) :
    (withSecretRef m).DocForPatches = m.DocForPatches := by
  unfold withSecretRef
  cases hps : m.PullSecret <;> simp [hps]

theorem withSecretRef_PullSecret (m : Midstream) :
    (withSecretRef m).PullSecret = m.PullSecret := by
  unfold withSecretRef
  cases hps : m.PullSecret <;> simp [hps]

theorem withSecretRef_Resources (m : Midstream) :
    (withSecretRef m).Kustomization.Resources =
      m.Kustomization.Resources ++
        (match m.PullSecret with | none => [] | some _ => [secretFilename]) := by
  unfold withSecretRef
  cases hps : m.PullSecret <;> simp [hps]

theorem withSecretRef_Patches (m : Midstream) :
    (withSecretRef m).Kustomization.PatchesStrategicMerge =
      m.Kustomization.PatchesStrategicMerge := by
  unfold withSecretRef
  cases hps : m.PullSecret <;> simp [hps]

theorem withPatchRef_Resources (m : Midstream) :
    (withPatchRef m).Kustomization.Resources = m.Kustomization.Resources := by
  unfold withPatchRef
  split <;> rfl

theorem withPatchRef_Patches (m : Midstream) :
    (withPatchRef m).Kustomization.PatchesStrategicMerge =
      m.Kustomization.PatchesStrategicMerge ++
        (if m.DocForPatches.length == 0 then [] else [patchesFilename]) := by
  unfold withPatchRef
  split <;> simp_all

/-- writePullSecret without a pull secret does nothing. -/
theorem writePullSecret_none (m : Midstream) (options : WriteOptions) (env : MidstreamEnv)
    (h : m.PullSecret = none) : writePullSecret m options env = ([], Except.ok "") := by
  unfold writePullSecret
  rw [h]

/-- A successful writePullSecret returns the empty name exactly when there is
no pull secret, and the fixed secret filename otherwise. -/
theorem writePullSecret_ok (m : Midstream) (options : WriteOptions) (env : MidstreamEnv)
    (fn : String) (h : (writePullSecret m options env).2 = Except.ok fn) :
    (m.PullSecret = none ∧ fn = "") ∨
    (∃ s, m.PullSecret = some s ∧ fn = secretFilename) := by
  unfold writePullSecret at h
  cases hps : m.PullSecret with
  | none =>
    rw [hps] at h
    simp only at h
    exact Or.inl ⟨rfl, by injection h; simp_all⟩
  | some s =>
    rw [hps] at h
    simp only at h
    split at h
    · simp at h
    · split at h
      · simp at h
      · refine Or.inr ⟨s, rfl, ?_⟩
        injection h
        simp_all

/-- The operations performed by writePullSecret: nothing, or the single
secret write. -/
theorem writePullSecret_ops (m : Midstream) (options : WriteOptions) (env : MidstreamEnv) :
    (writePullSecret m options env).1 = [] ∨
    ∃ s, m.PullSecret = some s ∧
      (writePullSecret m options env).1 =
        [MOp.writeSecretFile (goPathJoin options.MidstreamDir secretFilename) s] := by
  unfold writePullSecret
  cases hps : m.PullSecret with
  | none => exact Or.inl rfl
  | some s =>
    simp only
    split
    · exact Or.inl rfl
    · split
      · exact Or.inl rfl
      · exact Or.inr ⟨s, rfl, rfl⟩

/-- The operations performed by writeObjectsWithPullSecret: nothing, or the
single patch-file write carrying all minimal patch documents. -/
theorem writeObjectsWithPullSecret_ops (m : Midstream) (options : WriteOptions)
    (env : MidstreamEnv) :
    (writeObjectsWithPullSecret m options env).1 = [] ∨
    (m.DocForPatches ≠ [] ∧
     (writeObjectsWithPullSecret m options env).1 =
       [MOp.writePatchesFile (goPathJoin options.MidstreamDir patchesFilename)
         (m.DocForPatches.map fun d => obejctWithPullSecret d m.PullSecret)]) := by
  unfold writeObjectsWithPullSecret
  split
  · exact Or.inl rfl
  · rename_i hne
    split
    · exact Or.inl rfl
    · refine Or.inr ⟨?_, rfl⟩
      simpa using hne

/-- A successful writeObjectsWithPullSecret returns the empty name exactly
when there is nothing to patch, and the fixed patches filename otherwise. -/
theorem writeObjectsWithPullSecret_ok (m : Midstream) (options : WriteOptions)
    (env : MidstreamEnv) (fn : String)
    (h : (writeObjectsWithPullSecret m options env).2 = Except.ok fn) :
    ((m.DocForPatches.length == 0) = true ∧ fn = "") ∨
    ((m.DocForPatches.length == 0) = false ∧ fn = patchesFilename) := by
  unfold writeObjectsWithPullSecret at h
  split at h
  · rename_i hz
    exact Or.inl ⟨by simpa using hz, by injection h; simp_all⟩
  · rename_i hz
    split at h
    · simp at h
    · exact Or.inr ⟨by simpa using hz, by injection h; simp_all⟩

/-- The operations performed by writeKustomization: nothing, or the single
kustomization write. -/
theorem writeKustomization_ops (m : Midstream) (options : WriteOptions) (env : MidstreamEnv) :
    (writeKustomization m options env).1 = [] ∨
    ∃ k, (writeKustomization m options env).1 =
      [MOp.writeKustomizationFile (KustomizationFilename options) k] := by
  unfold writeKustomization
  split
  · exact Or.inl rfl
  · split
    · exact Or.inl rfl
    · exact Or.inr ⟨_, rfl⟩

/-- A successful writeKustomization returns the input composer state with its
Bases overwritten by the single relative base path. -/
theorem writeKustomization_ok (m : Midstream) (options : WriteOptions) (env : MidstreamEnv)
    (res : Midstream) (h : (writeKustomization m options env).2 = Except.ok res) :
    ∃ r, env.relPath options.MidstreamDir options.BaseDir = some r ∧
      res = { m with Kustomization := { m.Kustomization with Bases := [r] } } := by
  unfold writeKustomization at h
  split at h
  · simp at h
  · rename_i r hr
    split at h
    · simp at h
    · refine ⟨r, hr, ?_⟩
      injection h with h2
      exact h2.symm

/-- The existing Kustomization determined by a successful load. -/
theorem existingOf_eq_of_load (env : MidstreamEnv) (existing : Option Kustomization)
    (h : loadExistingKustomization env = Except.ok existing) : existingOf env = existing := by
  revert h
  unfold loadExistingKustomization existingOf
  cases env.statKustomizationFile <;> cases env.readKustomization <;> intro h <;> simp_all

/-- Recording the secret reference returned by a successful writePullSecret
is exactly withSecretRef. -/
theorem secretRefStep_eq (m : Midstream) (fn : String)
    (h : (m.PullSecret = none ∧ fn = "") ∨ (∃ s, m.PullSecret = some s ∧ fn = secretFilename)) :
    (if fn == "" then m else
      { m with Kustomization :=
          { m.Kustomization with Resources := m.Kustomization.Resources ++ [fn] } }) =
      withSecretRef m := by
  rcases h with ⟨hps, rfl⟩ | ⟨s, hps, rfl⟩
  · rw [withSecretRef_none m hps]
    rfl
  · rw [if_neg (by decide)]
    unfold withSecretRef
    rw [hps]

/-- Recording the patch reference returned by a successful
writeObjectsWithPullSecret is exactly withPatchRef. -/
theorem patchRefStep_eq (m1 : Midstream) (fn : String)
    (h : ((m1.DocForPatches.length == 0) = true ∧ fn = "") ∨
         ((m1.DocForPatches.length == 0) = false ∧ fn = patchesFilename)) :
    (if fn == "" then m1 else
      { m1 with Kustomization :=
          { m1.Kustomization with
              PatchesStrategicMerge := m1.Kustomization.PatchesStrategicMerge ++ [fn] } }) =
      withPatchRef m1 := by
  rcases h with ⟨hz, rfl⟩ | ⟨hz, rfl⟩
  · unfold withPatchRef
    rw [hz]
    rfl
  · rw [if_neg (by decide)]
    unfold withPatchRef
    rw [hz]
    rfl

/-- Every operation the patch stage performs is the patch-file write of its
input state or a kustomization write. -/
theorem writeMidstreamPatchStage_ops (m1 : Midstream) (options : WriteOptions)
    (env : MidstreamEnv) (existing : Option Kustomization) :
    ∀ op ∈ (writeMidstreamPatchStage m1 options env existing).1,
      (m1.DocForPatches ≠ [] ∧
        op = MOp.writePatchesFile (goPathJoin options.MidstreamDir patchesFilename)
          (m1.DocForPatches.map fun d => obejctWithPullSecret d m1.PullSecret)) ∨
      (∃ k, op = MOp.writeKustomizationFile (KustomizationFilename options) k) := by
  intro op hop
  rcases hpo : (writeObjectsWithPullSecret m1 options env).2 with e | fn
  · have e1 : (writeMidstreamPatchStage m1 options env existing).1 =
        (writeObjectsWithPullSecret m1 options env).1 := by
      unfold writeMidstreamPatchStage
      rw [hpo]
    rw [e1] at hop
    rcases writeObjectsWithPullSecret_ops m1 options env with h2 | ⟨hne, h2⟩ <;> rw [h2] at hop
    · simp at hop
    · simp at hop
      exact Or.inl ⟨hne, hop⟩
  · have e1 : (writeMidstreamPatchStage m1 options env existing).1 =
        (writeObjectsWithPullSecret m1 options env).1 ++
          (writeKustomization
            (mergeKustomization
              (if fn == "" then m1 else
                { m1 with Kustomization :=
                    { m1.Kustomization with
                        PatchesStrategicMerge :=
                          m1.Kustomization.PatchesStrategicMerge ++ [fn] } })
              existing)
            options env).1 := by
      unfold writeMidstreamPatchStage
      rw [hpo]
      rfl
    rw [e1] at hop
    rcases List.mem_append.mp hop with hop2 | hop2
    · rcases writeObjectsWithPullSecret_ops m1 options env with h2 | ⟨hne, h2⟩ <;> rw [h2] at hop2
      · simp at hop2
      · simp at hop2
        exact Or.inl ⟨hne, hop2⟩
    · rcases writeKustomization_ops (mergeKustomization
          (if fn == "" then m1 else
            { m1 with Kustomization :=
                { m1.Kustomization with
                    PatchesStrategicMerge :=
                      m1.Kustomization.PatchesStrategicMerge ++ [fn] } })
          existing) options env with h3 | ⟨k, h3⟩ <;> rw [h3] at hop2
      · simp at hop2
      · simp at hop2
        exact Or.inr ⟨k, hop2⟩

/-- Every operation the secret stage performs is the secret write for the
configured pull secret, the patch-file write, or a kustomization write. -/
theorem writeMidstreamSecretStage_ops (m : Midstream) (options : WriteOptions)
    (env : MidstreamEnv) (existing : Option Kustomization) :
    ∀ op ∈ (writeMidstreamSecretStage m options env existing).1,
      (∃ s, m.PullSecret = some s ∧
        op = MOp.writeSecretFile (goPathJoin options.MidstreamDir secretFilename) s) ∨
      (m.DocForPatches ≠ [] ∧
        op = MOp.writePatchesFile (goPathJoin options.MidstreamDir patchesFilename)
          (m.DocForPatches.map fun d => obejctWithPullSecret d m.PullSecret)) ∨
      (∃ k, op = MOp.writeKustomizationFile (KustomizationFilename options) k) := by
  intro op hop
  rcases hps : (writePullSecret m options env).2 with e | fn
  · have e1 : (writeMidstreamSecretStage m options env existing).1 =
        (writePullSecret m options env).1 := by
      unfold writeMidstreamSecretStage
      rw [hps]
    rw [e1] at hop
    rcases writePullSecret_ops m options env with h2 | ⟨s, hs, h2⟩ <;> rw [h2] at hop
    · simp at hop
    · simp at hop
      exact Or.inl ⟨s, hs, hop⟩
  · have e1 : (writeMidstreamSecretStage m options env existing).1 =
        (writePullSecret m options env).1 ++
          (writeMidstreamPatchStage
            (if fn == "" then m else
              { m with Kustomization :=
                  { m.Kustomization with
                      Resources := m.Kustomization.Resources ++ [fn] } })
            options env existing).1 := by
      unfold writeMidstreamSecretStage
      rw [hps]
      rfl
    rw [secretRefStep_eq m fn (writePullSecret_ok m options env fn hps)] at e1
    rw [e1] at hop
    rcases List.mem_append.mp hop with hop2 | hop2
    · rcases writePullSecret_ops m options env with h2 | ⟨s, hs, h2⟩ <;> rw [h2] at hop2
      · simp at hop2
      · simp at hop2
        exact Or.inl ⟨s, hs, hop2⟩
    · rcases writeMidstreamPatchStage_ops (withSecretRef m) options env existing op hop2 with
        ⟨hne, h3⟩ | h3
      · rw [withSecretRef_DocForPatches] at hne
        rw [withSecretRef_DocForPatches, withSecretRef_PullSecret] at h3
        exact Or.inr (Or.inl ⟨hne, h3⟩)
      · exact Or.inr (Or.inr h3)

/-- Every operation WriteMidstream performs is the directory creation, the
secret write for the configured pull secret, the patch-file write for the
configured documents, or a kustomization write. -/
theorem WriteMidstream_ops_shape (m : Midstream) (options : WriteOptions) (env : MidstreamEnv) :
    ∀ op ∈ (WriteMidstream m options env).1,
      op = MOp.mkdirAll options.MidstreamDir ∨
      (∃ s, m.PullSecret = some s ∧
        op = MOp.writeSecretFile (goPathJoin options.MidstreamDir secretFilename) s) ∨
      (m.DocForPatches ≠ [] ∧
        op = MOp.writePatchesFile (goPathJoin options.MidstreamDir patchesFilename)
          (m.DocForPatches.map fun d => obejctWithPullSecret d m.PullSecret)) ∨
      (∃ k, op = MOp.writeKustomizationFile (KustomizationFilename options) k) := by
  intro op hop
  rcases hload : loadExistingKustomization env with e | existing
  · have e1 : (WriteMidstream m options env).1 = [] := by
      unfold WriteMidstream
      rw [hload]
    rw [e1] at hop
    simp at hop
  · by_cases hmk : env.opFails (MOp.mkdirAll options.MidstreamDir)
    · have e1 : (WriteMidstream m options env).1 = [] := by
        unfold WriteMidstream
        rw [hload]
        simp [hmk]
      rw [e1] at hop
      simp at hop
    · have e1 : (WriteMidstream m options env).1 =
          MOp.mkdirAll options.MidstreamDir ::
            (writeMidstreamSecretStage m options env existing).1 := by
        unfold WriteMidstream
        rw [hload]
        simp [prependOps, hmk]
      rw [e1] at hop
      rcases List.mem_cons.mp hop with hop2 | hop2
      · exact Or.inl hop2
      · exact Or.inr (writeMidstreamSecretStage_ops m options env existing op hop2)

/-- A successful WriteMidstream returns the merge of the newly computed
Kustomization, extended with the secret and patch references it wrote, with
the observed existing Kustomization, its Bases overwritten by the single
relative base path. -/
theorem WriteMidstream_ok_shape (m : Midstream) (options : WriteOptions) (env : MidstreamEnv)
    (res : Midstream) (h : (WriteMidstream m options env).2 = Except.ok res) :
    ∃ r, env.relPath options.MidstreamDir options.BaseDir = some r ∧
      res = { mergeKustomization (withPatchRef (withSecretRef m)) (existingOf env) with
              Kustomization :=
                { (mergeKustomization (withPatchRef (withSecretRef m))
                    (existingOf env)).Kustomization with Bases := [r] } } := by
  rcases hload : loadExistingKustomization env with e | existing
  · have e1 : (WriteMidstream m options env).2 = Except.error e := by
      unfold WriteMidstream
      rw [hload]
    rw [h] at e1
    simp at e1
  · by_cases hmk : env.opFails (MOp.mkdirAll options.MidstreamDir)
    · have e1 : (WriteMidstream m options env).2 = Except.error MidstreamError.mkdirFailed := by
        unfold WriteMidstream
        rw [hload]
        simp [hmk]
      rw [h] at e1
      simp at e1
    · have e1 : (WriteMidstream m options env).2 =
          (writeMidstreamSecretStage m options env existing).2 := by
        unfold WriteMidstream
        rw [hload]
        simp [prependOps, hmk]
      rw [e1] at h
      rcases hps : (writePullSecret m options env).2 with e2 | secretFn
      · have e3 : (writeMidstreamSecretStage m options env existing).2 = Except.error e2 := by
          unfold writeMidstreamSecretStage
          rw [hps]
        rw [h] at e3
        simp at e3
      · have e3 : (writeMidstreamSecretStage m options env existing).2 =
            (writeMidstreamPatchStage
              (if secretFn == "" then m else
                { m with Kustomization :=
                    { m.Kustomization with
                        Resources := m.Kustomization.Resources ++ [secretFn] } })
              options env existing).2 := by
          unfold writeMidstreamSecretStage
          rw [hps]
          rfl
        rw [secretRefStep_eq m secretFn (writePullSecret_ok m options env secretFn hps)] at e3
        rw [e3] at h
        rcases hpo : (writeObjectsWithPullSecret (withSecretRef m) options env).2 with e2 | patchFn
        · have e4 : (writeMidstreamPatchStage (withSecretRef m) options env existing).2 =
              Except.error e2 := by
            unfold writeMidstreamPatchStage
            rw [hpo]
          rw [h] at e4
          simp at e4
        · have e4 : (writeMidstreamPatchStage (withSecretRef m) options env existing).2 =
              (writeKustomization
                (mergeKustomization
                  (if patchFn == "" then withSecretRef m else
                    { withSecretRef m with Kustomization :=
                        { (withSecretRef m).Kustomization with
                            PatchesStrategicMerge :=
                              (withSecretRef m).Kustomization.PatchesStrategicMerge ++
                                [patchFn] } })
                  existing)
                options env).2 := by
            unfold writeMidstreamPatchStage
            rw [hpo]
            rfl
          rw [patchRefStep_eq (withSecretRef m) patchFn
            (writeObjectsWithPullSecret_ok (withSecretRef m) options env patchFn hpo)] at e4
          rw [e4] at h
          obtain ⟨r, hrel, hres⟩ := writeKustomization_ok _ options env res h
          refine ⟨r, hrel, ?_⟩
          rw [existingOf_eq_of_load env existing hload]
          exact hres

/-- Inversion for merged resources: every merged resource entry comes from
the newly computed list or from the existing Kustomization. -/
theorem mem_merge_Resources_inv (m : Midstream) (exOpt : Option Kustomization) (r : String)
    (h : r ∈ (mergeKustomization m exOpt).Kustomization.Resources) :
    r ∈ m.Kustomization.Resources ∨ ∃ ex, exOpt = some ex ∧ r ∈ ex.Resources := by
  cases exOpt with
  | none =>
    rw [mergeKustomization_none] at h
    exact Or.inl h
  | some ex =>
    rw [mergeKustomization_some_Resources] at h
    rcases List.mem_append.mp h with h1 | h2
    · exact Or.inr ⟨ex, rfl, h1⟩
    · unfold findNewStrings at h2
      exact Or.inl (List.mem_filter.mp h2).1

/-- C5: when the existing kustomization.yaml is present but does not parse,
WriteMidstream fails with the load error before performing any filesystem
operation, and never falls back to treating the existing Kustomization as
absent. -/
theorem WriteMidstream_parse_error_aborts (m : Midstream) (options : WriteOptions)
    (env : MidstreamEnv) (hstat : env.statKustomizationFile = StatOutcome.ok)
    (hread : env.readKustomization = none) :
    WriteMidstream m options env = ([], Except.error MidstreamError.loadExistingFailed) := by
  unfold WriteMidstream loadExistingKustomization
  rw [hstat, hread]

/-- C5 witness: the concrete unparsable-existing-state call fails with the
load error and an empty trace. -/
theorem WriteMidstream_parse_error_aborts_witness :
    WriteMidstream sampleMidstream sampleOptions parseFailEnv =
      ([], Except.error MidstreamError.loadExistingFailed) :=
  WriteMidstream_parse_error_aborts sampleMidstream sampleOptions parseFailEnv rfl rfl

/-- C6: with no pull secret configured, WriteMidstream never writes a secret
file, and every resource entry of a successfully persisted Kustomization
comes from the newly computed resources or the pre-existing ones, so no
secret.yaml reference is added. -/
theorem WriteMidstream_secret_gating (m : Midstream) (options : WriteOptions)
    (env : MidstreamEnv) (hps : m.PullSecret = none) :
    ((WriteMidstream m options env).1.all fun op => !op.isWriteSecretFile) = true ∧
    ∀ res, (WriteMidstream m options env).2 = Except.ok res →
      ∀ x ∈ res.Kustomization.Resources,
        x ∈ m.Kustomization.Resources ∨ x ∈ existingResources env := by
  constructor
  · rw [List.all_eq_true]
    intro op hop
    rcases WriteMidstream_ops_shape m options env op hop with
      h1 | ⟨s, hs, h1⟩ | ⟨hne, h1⟩ | ⟨k, h1⟩
    · subst h1
      rfl
    · rw [hps] at hs
      exact Option.noConfusion hs
    · subst h1
      rfl
    · subst h1
      rfl
  · intro res hok x hx
    obtain ⟨r, hrel, hres⟩ := WriteMidstream_ok_shape m options env res hok
    subst hres
    have hx2 : x ∈ (mergeKustomization (withPatchRef (withSecretRef m))
        (existingOf env)).Kustomization.Resources := hx
    rcases mem_merge_Resources_inv _ _ _ hx2 with h1 | ⟨ex, hex, h2⟩
    · rw [withPatchRef_Resources, withSecretRef_Resources, hps] at h1
      simp only [List.append_nil] at h1
      exact Or.inl h1
    · right
      unfold existingResources
      rw [hex]
      exact h2

/-- C6 witness: the concrete no-pull-secret call performs no secret write. -/
theorem WriteMidstream_secret_gating_witness :
    ((WriteMidstream sampleNoSecret sampleOptions sampleFreshEnv).1.all
      fun op => !op.isWriteSecretFile) = true :=
  (WriteMidstream_secret_gating sampleNoSecret sampleOptions sampleFreshEnv rfl).1

/-- C7: on every successful WriteMidstream call, if the trace contains the
secret write then the persisted Kustomization references secret.yaml in its
Resources, and if it contains the patch-file write then the persisted
Kustomization references pullsecrets.yaml in its PatchesStrategicMerge,
whatever pre-existing Kustomization was merged in. -/
theorem WriteMidstream_written_files_referenced (m : Midstream) (options : WriteOptions)
    (env : MidstreamEnv) (res : Midstream)
    (h : (WriteMidstream m options env).2 = Except.ok res) :
    (((WriteMidstream m options env).1.any fun op => op.isWriteSecretFile) = true →
      secretFilename ∈ res.Kustomization.Resources) ∧
    (((WriteMidstream m options env).1.any fun op => op.isWritePatchesFile) = true →
      patchesFilename ∈ res.Kustomization.PatchesStrategicMerge) := by
  obtain ⟨r, hrel, hres⟩ := WriteMidstream_ok_shape m options env res h
  constructor
  · intro hany
    rw [List.any_eq_true] at hany
    obtain ⟨op, hop, hsec⟩ := hany
    rcases WriteMidstream_ops_shape m options env op hop with
      h1 | ⟨s, hs, h1⟩ | ⟨hne, h1⟩ | ⟨k, h1⟩
    · subst h1
      simp [MOp.isWriteSecretFile] at hsec
    · subst hres
      have hmem : secretFilename ∈ (withPatchRef (withSecretRef m)).Kustomization.Resources := by
        rw [withPatchRef_Resources, withSecretRef_Resources, hs]
        simp
      exact mem_merge_Resources_of_mem_new _ _ _ hmem
    · subst h1
      simp [MOp.isWriteSecretFile] at hsec
    · subst h1
      simp [MOp.isWriteSecretFile] at hsec
  · intro hany
    rw [List.any_eq_true] at hany
    obtain ⟨op, hop, hpat⟩ := hany
    rcases WriteMidstream_ops_shape m options env op hop with
      h1 | ⟨s, hs, h1⟩ | ⟨hne, h1⟩ | ⟨k, h1⟩
    · subst h1
      simp [MOp.isWritePatchesFile] at hpat
    · subst h1
      simp [MOp.isWritePatchesFile] at hpat
    · subst hres
      have hmem : patchesFilename ∈
          (withPatchRef (withSecretRef m)).Kustomization.PatchesStrategicMerge := by
        rw [withPatchRef_Patches]
        have hne2 : ((withSecretRef m).DocForPatches.length == 0) = false := by
          rw [withSecretRef_DocForPatches]
          cases hd : m.DocForPatches with
          | nil => exact absurd hd hne
          | cons a l => rfl
        rw [hne2]
        simp
      exact mem_merge_Patches_of_mem_new _ _ _ hmem
    · subst h1
      simp [MOp.isWritePatchesFile] at hpat

/-- C7 witness: in the concrete successful render both files are written and
both references are present in the persisted Kustomization. -/
theorem WriteMidstream_written_files_referenced_witness :
    secretFilename ∈ sampleResult.Kustomization.Resources ∧
    patchesFilename ∈ sampleResult.Kustomization.PatchesStrategicMerge :=
  ⟨(WriteMidstream_written_files_referenced sampleMidstream sampleOptions sampleFreshEnv
      sampleResult rfl).1 (by decide),
   (WriteMidstream_written_files_referenced sampleMidstream sampleOptions sampleFreshEnv
      sampleResult rfl).2 (by decide)⟩

/-- C8: every successful WriteMidstream call persists a Kustomization whose
Bases is exactly the one-element list holding the relative path computed from
MidstreamDir to BaseDir, regardless of anything an existing Kustomization
contained. -/
theorem WriteMidstream_bases_single_relative (m : Midstream) (options : WriteOptions)
    (env : MidstreamEnv) (res : Midstream)
    (h : (WriteMidstream m options env).2 = Except.ok res) :
    ∃ r, env.relPath options.MidstreamDir options.BaseDir = some r ∧
      res.Kustomization.Bases = [r] := by
  obtain ⟨r, hrel, hres⟩ := WriteMidstream_ok_shape m options env res h
  refine ⟨r, hrel, ?_⟩
  subst hres
  rfl

/-- C8 witness: the concrete successful render persists Bases equal to the
single relative base path supplied by the environment. -/
theorem WriteMidstream_bases_single_relative_witness :
    sampleResult.Kustomization.Bases = ["../../base"] := by
  obtain ⟨r, hrel, hb⟩ := WriteMidstream_bases_single_relative sampleMidstream sampleOptions
    sampleFreshEnv sampleResult rfl
  have hr : some "../../base" = some r := hrel
  injection hr with hr2
  rw [← hr2] at hb
  exact hb

/-- C1 amended-claim witness: a new image entry with a fresh name is present
in the merged list. -/
theorem mergeKustomization_images_new_entries_win_witness :
    (⟨"web", "", "2", ""⟩ : Image) ∈
      (mergeKustomization { Kustomization := { Images := [⟨"web", "", "2", ""⟩] } }
        (some { Images := [⟨"db", "", "1", ""⟩] })).Kustomization.Images :=
  (mergeKustomization_images_new_entries_win
      { Kustomization := { Images := [⟨"web", "", "2", ""⟩] } }
      { Images := [⟨"db", "", "1", ""⟩] }).1 _ (by decide)

/-- C2 amended-claim witness: a manually added existing patch survives the
merge. -/
theorem mergeKustomization_monotone_outside_images_witness :
    "custom.yaml" ∈
      (mergeKustomization
        { Kustomization := { PatchesStrategicMerge := ["pullsecrets.yaml"] } }
        (some { PatchesStrategicMerge := ["custom.yaml"] })).Kustomization.PatchesStrategicMerge :=
  (mergeKustomization_monotone_outside_images
      { Kustomization := { PatchesStrategicMerge := ["pullsecrets.yaml"] } }
      { PatchesStrategicMerge := ["custom.yaml"] }).2.2.2.2.1 _ (by decide)

end Kots.midstream
